import Mathlib

/-!
Shallow embedding of the evm-loadtest core (src/lib/transaction-sender.ts and
src/lib/load-tester.ts).  JavaScript numbers that only ever hold integers
(counters, timestamps, gas, block numbers) are modelled as `Int`; values on
which fractional arithmetic is performed (TPS, gas prices in gwei, costs) are
modelled as `Rat`.  All network and clock effects are supplied by explicit
per-call environment records, so every function of the embedding is a total
computable function of its state and its environment.
-/

namespace EvmLoadTest

/-- A JavaScript thrown value as observed by a `catch` block:
`some s` is an `Error` whose `.message` is `s`; `none` is a thrown non-`Error`
value (for which `error instanceof Error` is false). -/
abbrev JsError := Option String

/-- Mirrors `error instanceof Error ? error.message : 'Unknown error'` used by
the catch blocks of `sendTransaction` and `getTransactionStatus`. -/
def errText (e : JsError) : String := e.getD "Unknown error"

/-- Mirrors `error instanceof Error ? error.message : 'Confirmation timeout'`
used by the catch block of `waitForConfirmation`. -/
def errTextConfirm (e : JsError) : String := e.getD "Confirmation timeout"

/-- JavaScript truthiness of an optional string (`undefined` and `''` are
falsy), used for `if (gasPrice)` and `this.config.gasPrice &&`. -/
def jsTruthyStr : Option String → Bool
  | some s => !s.isEmpty
  | none => false

deriving instance DecidableEq for Except

/-- Status field of `TransactionResult` (src/types/index.ts). -/
inductive TxStatus
  | pending
  | success
  | failed
deriving DecidableEq, Repr

/-- TransactionResult from src/types/index.ts.  `gasPrice` strings produced by
`ethers.formatUnits(x, 'gwei')` are modelled as the rational gwei value. -/
structure TransactionResult where
  hash : String
  status : TxStatus
  timestamp : Int
  gasUsed : Option Int := none
  gasPrice : Option Rat := none
  error : Option String := none
  confirmationTime : Option Int := none
  blockNumber : Option Int := none
  blockHash : Option String := none
deriving DecidableEq, Repr

/-- Mutable state of a `TransactionSender` instance: the nonce counter. -/
structure SenderState where
  nonce : Nat
deriving DecidableEq, Repr

/-- Environment of one `sendTransaction` call: the observable results of the
clock read and of each fallible collaborator step, in the order the source
performs them.  The destination address, value string and gas limit flow only
into the abstracted transport, so they are not repeated here. -/
structure SendEnv where
  /-- Date.now() at entry of the call. -/
  now : Int
  /-- Result of `ethers.parseEther(value)` evaluated while building the
  transaction request, before `nonce: this.nonce++` is reached. -/
  parseEther : Except JsError Unit
  /-- Result of `ethers.parseUnits(gasPrice, 'gwei')` (consulted only when a
  truthy gas price string was supplied). -/
  parseUnits : Except JsError Rat
  /-- Result of `this.provider.getFeeData()`: its `gasPrice` field, which may
  be null (consulted only when no truthy gas price string was supplied). -/
  feeData : Except JsError (Option Rat)
  /-- Result of `this.wallet.sendTransaction(txRequest)`: the transaction hash
  on success. -/
  send : Except JsError String
deriving DecidableEq, Repr

/-- sendTransaction (src/lib/transaction-sender.ts lines 59 to 99).  The
object literal building `txRequest` evaluates `ethers.parseEther(value)`
before the `nonce: this.nonce++` field, so a value-parse failure is caught
without the nonce counter having been touched; every later failure happens
after the counter was incremented.  Returns the result together with the
sender state after the call. -/
def sendTransaction (gasPriceArg : Option String) (st : SenderState)
    (env : SendEnv) : TransactionResult × SenderState :=
  let startTime := env.now
  match env.parseEther with
  | Except.error e =>
      ({ hash := "", status := TxStatus.failed, timestamp := startTime,
         error := some (errText e) }, st)
  | Except.ok _ =>
      let st2 : SenderState := { nonce := st.nonce + 1 }
      let gp : Except JsError (Option Rat) :=
        if jsTruthyStr gasPriceArg then
          match env.parseUnits with
          | Except.error e => Except.error e
          | Except.ok q => Except.ok (some q)
        else env.feeData
      match gp with
      | Except.error e =>
          ({ hash := "", status := TxStatus.failed, timestamp := startTime,
             error := some (errText e) }, st2)
      | Except.ok gpv =>
          match env.send with
          | Except.error e =>
              ({ hash := "", status := TxStatus.failed, timestamp := startTime,
                 error := some (errText e) }, st2)
          | Except.ok h =>
              ({ hash := h, status := TxStatus.pending, timestamp := startTime,
                 gasPrice := some (gpv.getD 0) }, st2)

/-- Runs a list of `sendTransaction` calls in order, threading the sender
state: in the source the calls of one batch are issued synchronously in a
loop (each call runs up to its first await, which is after the nonce draw,
before the next call is issued). -/
def runCalls (gasPriceArg : Option String) (envs : List SendEnv)
    (st : SenderState) : List TransactionResult × SenderState :=
  match envs with
  | [] => ([], st)
  | e :: es =>
      let r := sendTransaction gasPriceArg st e
      let rest := runCalls gasPriceArg es r.2
      (r.1 :: rest.1, rest.2)

/-- sendBatchTransactions (src/lib/transaction-sender.ts lines 104 to 118):
issues `count` sendTransaction calls, the i-th with environment `env i`. -/
def sendBatchTransactions (count : Nat) (gasPriceArg : Option String)
    (env : Nat → SendEnv) (st : SenderState) :
    List TransactionResult × SenderState :=
  runCalls gasPriceArg ((List.range count).map env) st

/-- Whether one `sendTransaction` call reaches the `nonce: this.nonce++` draw
(it does unless `ethers.parseEther(value)` threw first). -/
def drawsNonce (env : SendEnv) : Bool :=
  match env.parseEther with
  | Except.ok _ => true
  | Except.error _ => false

/-- The nonce values drawn by a list of calls starting from counter `n`:
one value per call that reaches the draw, in call order. -/
def callsNonces (envs : List SendEnv) (n : Nat) : List Nat :=
  match envs with
  | [] => []
  | e :: es => if drawsNonce e then n :: callsNonces es (n + 1) else callsNonces es n

/-- Number of calls of the list that draw a nonce. -/
def okCount (envs : List SendEnv) : Nat :=
  (envs.filter drawsNonce).length

/-- LoadTestConfig from src/types/index.ts (gas price and value kept as the
raw option strings the CLI passes in). -/
structure LoadTestConfig where
  rpcUrl : String
  privateKey : String
  targetAddress : String
  transactionCount : Nat
  concurrency : Nat
  gasPrice : Option String := none
  gasLimit : Option Int := none
  value : Option String := none
  duration : Option Int := none
deriving DecidableEq, Repr

/-- TPSSnapshot from src/types/index.ts. -/
structure TPSSnapshot where
  timestamp : Int
  tps : Rat
  successCount : Int
  failureCount : Int
deriving DecidableEq, Repr

/-- LoadTestMetrics from src/types/index.ts.  `totalCost` (a decimal string in
the source, produced by `toFixed(6)`) is modelled as the untruncated rational
cost. -/
structure Metrics where
  totalTransactions : Int
  successfulTransactions : Int
  failedTransactions : Int
  pendingTransactions : Int
  averageTPS : Rat
  peakTPS : Rat
  averageConfirmationTime : Rat
  totalDuration : Int
  startTime : Int
  endTime : Int
  gasUsedTotal : Int
  totalCost : Rat
  blockNumbers : List Int
  uniqueBlocks : Int
deriving DecidableEq, Repr

/-- createInitialMetrics (src/lib/load-tester.ts lines 43 to 60). -/
def createInitialMetrics : Metrics :=
  { totalTransactions := 0
    successfulTransactions := 0
    failedTransactions := 0
    pendingTransactions := 0
    averageTPS := 0
    peakTPS := 0
    averageConfirmationTime := 0
    totalDuration := 0
    startTime := 0
    endTime := 0
    gasUsedTotal := 0
    totalCost := 0
    blockNumbers := []
    uniqueBlocks := 0 }

/-- Batch plan of the dispatch loop of executeConcurrentTransactions
(src/lib/load-tester.ts lines 148 to 172): for each iteration of
`for (let i = 0; i < total; i += batchSize)` the pair of
`currentBatchSize = Math.min(batchSize, total - i)` and of whether the
inter-batch pause `if (i + batchSize < total)` fires afterwards, expressed on
the remaining count `total - i`.  (When batchSize is 0 the source loop would
never terminate; the plan is empty in that degenerate case.) -/
def batchPlan (total batchSize : Nat) : List (Nat × Bool) :=
  if h : total = 0 ∨ batchSize = 0 then []
  else (min batchSize total, decide (batchSize < total)) :: batchPlan (total - batchSize) batchSize
termination_by total
decreasing_by
  simp only [not_or] at h
  omega

/-- Metrics update performed after one batch resolves
(src/lib/load-tester.ts lines 162 to 166). -/
def updateAfterBatch (m : Metrics) (batchResults : List TransactionResult)
    (currentBatchSize : Nat) : Metrics :=
  { m with
    totalTransactions := m.totalTransactions + (currentBatchSize : Int),
    pendingTransactions := m.pendingTransactions +
      ((batchResults.filter (fun r => r.status == TxStatus.pending)).length : Int),
    failedTransactions := m.failedTransactions +
      ((batchResults.filter (fun r => r.status == TxStatus.failed)).length : Int) }

/-- Body of the dispatch loop of executeConcurrentTransactions, one step per
planned batch: issues the batch through sendBatchTransactions (the i-th
overall call receiving environment `env i`), appends its results, and applies
the per-batch metrics update. -/
def execPlan (plan : List (Nat × Bool)) (env : Nat → SendEnv) (idx : Nat)
    (gasPriceArg : Option String) (st : SenderState) (m : Metrics) :
    List TransactionResult × SenderState × Metrics :=
  match plan with
  | [] => ([], st, m)
  | (cur, _) :: rest =>
      let b := sendBatchTransactions cur gasPriceArg (fun j => env (idx + j)) st
      let m2 : Metrics := updateAfterBatch m b.1 cur
      let r := execPlan rest env (idx + cur) gasPriceArg b.2 m2
      (b.1 ++ r.1, r.2.1, r.2.2)

/-- executeConcurrentTransactions (src/lib/load-tester.ts lines 143 to 175):
runs the batch plan from index 0, returning the accumulated outcome sequence,
the sender state, and the updated metrics. -/
def executeConcurrentTransactions (cfg : LoadTestConfig) (env : Nat → SendEnv)
    (st : SenderState) (m : Metrics) :
    List TransactionResult × SenderState × Metrics :=
  execPlan (batchPlan cfg.transactionCount cfg.concurrency) env 0 cfg.gasPrice st m

/-- Receipt returned by `provider.waitForTransaction` /
`provider.getTransactionReceipt`; `status` is number-or-null in ethers. -/
structure ReceiptInfo where
  status : Option Int
  gasUsed : Int
  gasPrice : Option Rat
  blockNumber : Int
  blockHash : String
deriving DecidableEq, Repr

/-- Observable outcome of one `provider.waitForTransaction` call: it rejects
(timeout or transport error), resolves to null, or resolves to a receipt.
`elapsed` is the value of `Date.now() - startTime` at the moment the branch
returns. -/
inductive ConfirmResult
  | throws (e : JsError) (elapsed : Int)
  | nullReceipt
  | receipt (rc : ReceiptInfo) (elapsed : Int)
deriving DecidableEq, Repr

/-- Environment of one `waitForConfirmation` call. -/
structure ConfirmEnv where
  /-- Date.now() at entry of the call. -/
  now : Int
  result : ConfirmResult
deriving DecidableEq, Repr

/-- waitForConfirmation (src/lib/transaction-sender.ts lines 123 to 165). -/
def waitForConfirmation (txHash : String) (_confirmations : Nat)
    (_timeout : Int) (env : ConfirmEnv) : TransactionResult :=
  let startTime := env.now
  match env.result with
  | ConfirmResult.throws e elapsed =>
      { hash := txHash, status := TxStatus.failed, timestamp := startTime,
        error := some (errTextConfirm e), confirmationTime := some elapsed }
  | ConfirmResult.nullReceipt =>
      { hash := txHash, status := TxStatus.failed, timestamp := startTime,
        error := some "Transaction receipt not found" }
  | ConfirmResult.receipt rc elapsed =>
      { hash := txHash,
        status := if rc.status = some 1 then TxStatus.success else TxStatus.failed,
        timestamp := startTime,
        gasUsed := some rc.gasUsed,
        gasPrice := some (rc.gasPrice.getD 0),
        confirmationTime := some elapsed,
        blockNumber := some rc.blockNumber,
        blockHash := some rc.blockHash }

/-- waitForBatchConfirmations (src/lib/transaction-sender.ts lines 170 to
180): one waitForConfirmation per hash, the i-th receiving environment
`cenv i`. -/
def waitForBatchConfirmations (txHashes : List String) (confirmations : Nat)
    (timeout : Int) (cenv : Nat → ConfirmEnv) : List TransactionResult :=
  txHashes.enum.map (fun p => waitForConfirmation p.2 confirmations timeout (cenv p.1))

/-- Metrics update for one resolved confirmation (the body of the `for` loop
of waitForAllConfirmations, src/lib/load-tester.ts lines 196 to 211).  The
source guards the gas and block additions with JavaScript truthiness, so a
gas-used or block-number equal to 0 is skipped. -/
def applyConfirmation (m : Metrics) (r : TransactionResult) : Metrics :=
  if r.status == TxStatus.success then
    let m1 : Metrics := { m with
      successfulTransactions := m.successfulTransactions + 1,
      pendingTransactions := m.pendingTransactions - 1 }
    let m2 : Metrics := match r.gasUsed with
      | some g => if g = 0 then m1 else { m1 with gasUsedTotal := m1.gasUsedTotal + g }
      | none => m1
    match r.blockNumber with
      | some b => if b = 0 then m2 else { m2 with blockNumbers := m2.blockNumbers ++ [b] }
      | none => m2
  else if r.status == TxStatus.failed then
    { m with
      failedTransactions := m.failedTransactions + 1,
      pendingTransactions := m.pendingTransactions - 1 }
  else m

/-- waitForAllConfirmations (src/lib/load-tester.ts lines 180 to 212):
filters the pending outcomes, waits for each (the i-th pending transaction
receiving environment `cenv i`) with the timeout derived from the truthiness
of `config.duration`, and folds the metrics updates over the resolved
confirmations. -/
def waitForAllConfirmations (results : List TransactionResult)
    (cenv : Nat → ConfirmEnv) (cfgDuration : Option Int) (m : Metrics) : Metrics :=
  let pendingTxs := results.filter (fun r => r.status == TxStatus.pending)
  if pendingTxs.length = 0 then m
  else
    let timeout : Int := match cfgDuration with
      | some d => if d = 0 then 300000 else d * 1000
      | none => 300000
    let confirmationResults :=
      waitForBatchConfirmations (pendingTxs.map TransactionResult.hash) 1 timeout cenv
    confirmationResults.foldl applyConfirmation m

/-- updateTpsSnapshot (src/lib/load-tester.ts lines 217 to 235): appends a
snapshot computed from the current clock and success count, then drops the
oldest snapshot once the ring exceeds 100 entries. -/
def updateTpsSnapshot (now startTime : Int) (m : Metrics)
    (snaps : List TPSSnapshot) : List TPSSnapshot :=
  let timeElapsed : Rat := ((now - startTime : Int) : Rat) / 1000
  let currentTPS : Rat :=
    if 0 < timeElapsed then (m.successfulTransactions : Rat) / timeElapsed else 0
  let snap : TPSSnapshot :=
    { timestamp := now, tps := currentTPS,
      successCount := m.successfulTransactions,
      failureCount := m.failedTransactions }
  let snaps2 := snaps ++ [snap]
  if 100 < snaps2.length then snaps2.tail else snaps2

/-- The snapshot one monitoring tick records (the value updateTpsSnapshot
appends). -/
def tickSnap (now startTime : Int) (m : Metrics) : TPSSnapshot :=
  { timestamp := now
    tps := if 0 < (((now - startTime : Int) : Rat) / 1000)
      then (m.successfulTransactions : Rat) / (((now - startTime : Int) : Rat) / 1000)
      else 0
    successCount := m.successfulTransactions
    failureCount := m.failedTransactions }

/-- Appending one snapshot to the bounded ring (the list step performed by
updateTpsSnapshot). -/
def pushRing (snaps : List TPSSnapshot) (s : TPSSnapshot) : List TPSSnapshot :=
  if 100 < (snaps ++ [s]).length then (snaps ++ [s]).tail else snaps ++ [s]

/-- calculateFinalMetrics (src/lib/load-tester.ts lines 240 to 271).
`parseFloat` abstracts JavaScript's string-to-number parse of the configured
gas price; `Math.max(...list, 0)` is the fold of `max` over the snapshot tps
values with base 0; `[...new Set(xs)].length` is the number of distinct
elements, here `List.dedup` length. -/
def calculateFinalMetrics (parseFloat : String → Rat) (startTime endTime : Int)
    (snaps : List TPSSnapshot) (cfgGasPrice : Option String) (m : Metrics) : Metrics :=
  let m1 : Metrics := { m with totalDuration := endTime - startTime }
  let m2 : Metrics := if 0 < m1.totalDuration then
      { m1 with averageTPS :=
          ((m1.successfulTransactions : Rat) * 1000) / ((m1.totalDuration : Int) : Rat) }
    else m1
  let m3 : Metrics := { m2 with peakTPS := (snaps.map TPSSnapshot.tps).foldr max 0 }
  let confirmationTimes :=
    (snaps.map (fun s => s.timestamp - startTime)).filter (fun t => decide (0 < t))
  let m4 : Metrics := if 0 < confirmationTimes.length then
      { m3 with averageConfirmationTime :=
          ((confirmationTimes.sum : Int) : Rat) / (confirmationTimes.length : Rat) }
    else m3
  let m5 : Metrics := if decide (0 < m4.gasUsedTotal) && jsTruthyStr cfgGasPrice then
      let gasPriceWei : Rat := parseFloat (cfgGasPrice.getD "") * 1000000000
      let totalCostWei : Rat := (m4.gasUsedTotal : Rat) * gasPriceWei
      { m4 with totalCost := totalCostWei / 1000000000000000000 }
    else m4
  { m5 with uniqueBlocks := (m5.blockNumbers.dedup.length : Int) }

/-- Mutable state of a `LoadTester` instance. -/
structure LTState where
  isRunning : Bool
  startTime : Int
  endTime : Int
  metrics : Metrics
  tpsSnapshots : List TPSSnapshot
deriving DecidableEq, Repr

/-- stopLoadTest (src/lib/load-tester.ts lines 294 to 305): returns early
when no run is in progress, otherwise flips the running flag and records the
end time.  The function body has no throw path, which the `Except` result
makes explicit. -/
def stopLoadTest (now : Int) (st : LTState) : Except String LTState :=
  if !st.isRunning then Except.ok st
  else Except.ok
    { st with
      isRunning := false
      endTime := now
      metrics := { st.metrics with endTime := now } }

/-- startLoadTest (src/lib/load-tester.ts lines 87 to 138): guard against a
run already in progress, then dispatch, confirmation tracking, end-time
recording and metrics finalization.  `snaps` stands for the snapshot ring
accumulated by the real-time monitoring interval during the run; `now` and
`endNow` are the two clock reads. -/
def startLoadTest (cfg : LoadTestConfig) (env : Nat → SendEnv)
    (cenv : Nat → ConfirmEnv) (parseFloat : String → Rat)
    (snaps : List TPSSnapshot) (now endNow : Int) (sender : SenderState)
    (st : LTState) : Except String (LTState × SenderState × Metrics) :=
  if st.isRunning then Except.error "Load test is already running"
  else
    let m0 := { st.metrics with startTime := now }
    let d := executeConcurrentTransactions cfg env sender m0
    let m1 : Metrics := waitForAllConfirmations d.1 cenv cfg.duration d.2.2
    let m2 : Metrics := { m1 with endTime := endNow }
    let m3 : Metrics := calculateFinalMetrics parseFloat now endNow snaps cfg.gasPrice m2
    let st2 : LTState :=
      { isRunning := false, startTime := now, endTime := endNow,
        metrics := m3, tpsSnapshots := snaps }
    Except.ok (st2, d.2.1, m3)

/-- Transaction object returned by `provider.getTransaction`. -/
structure TxInfo where
  gasPrice : Option Rat
deriving DecidableEq, Repr

/-- Environment of one `getTransactionStatus` call. -/
structure StatusEnv where
  /-- Date.now() reads inside the call. -/
  now : Int
  /-- Result of `this.provider.getTransaction(txHash)`. -/
  getTransaction : Except JsError (Option TxInfo)
  /-- Result of `this.provider.getTransactionReceipt(txHash)`. -/
  getReceipt : Except JsError (Option ReceiptInfo)
deriving DecidableEq, Repr

/-- getTransactionStatus (src/lib/transaction-sender.ts lines 185 to 218):
`none` models the `return null` for a transaction unknown to the endpoint;
a provider throw is caught and converted to a failed result. -/
def getTransactionStatus (txHash : String) (env : StatusEnv) :
    Option TransactionResult :=
  match env.getTransaction with
  | Except.error e =>
      some { hash := txHash, status := TxStatus.failed, timestamp := env.now,
             error := some (errText e) }
  | Except.ok none => none
  | Except.ok (some tx) =>
      match env.getReceipt with
      | Except.error e =>
          some { hash := txHash, status := TxStatus.failed, timestamp := env.now,
                 error := some (errText e) }
      | Except.ok none =>
          some { hash := txHash, status := TxStatus.pending, timestamp := env.now,
                 gasPrice := some (tx.gasPrice.getD 0) }
      | Except.ok (some rc) =>
          some { hash := txHash,
                 status := if rc.status = some 1 then TxStatus.success else TxStatus.failed,
                 timestamp := env.now,
                 gasUsed := some rc.gasUsed,
                 gasPrice := some (rc.gasPrice.getD 0),
                 blockNumber := some rc.blockNumber,
                 blockHash := some rc.blockHash }

/-- The sendTransaction environments consumed by the dispatch loop, batch by
batch, in issue order (batch k consumes the next `cur` indices of `env`). -/
def dispatchEnvList (plan : List (Nat × Bool)) (env : Nat → SendEnv)
    (idx : Nat) : List SendEnv :=
  match plan with
  | [] => []
  | (cur, _) :: rest =>
      (List.range cur).map (fun j => env (idx + j)) ++ dispatchEnvList rest env (idx + cur)

/-- Whether every field of a send environment that is an `Error` throw
carries a non-empty message (an `Error` with an empty `.message` is legal
JavaScript, so claims about non-empty error text assume this of the
collaborators). -/
def jsErrNonempty : JsError → Bool
  | some s => !s.isEmpty
  | none => true

def exceptErrNonempty {α : Type} : Except JsError α → Bool
  | Except.error e => jsErrNonempty e
  | Except.ok _ => true

/-- All throw points of one sendTransaction environment carry non-empty
`Error` messages. -/
def sendEnvErrNonempty (env : SendEnv) : Bool :=
  exceptErrNonempty env.parseEther && exceptErrNonempty env.parseUnits &&
    exceptErrNonempty env.feeData && exceptErrNonempty env.send

/-- A sendTransaction environment whose every collaborator step succeeds. -/
def okSendEnv : SendEnv :=
  { now := 0, parseEther := Except.ok (), parseUnits := Except.ok 1,
    feeData := Except.ok (some 1), send := Except.ok "0xabc" }

/-- A sendTransaction environment in which `ethers.parseEther(value)` throws
(for example for the malformed value string "abc"), before the nonce draw. -/
def badValueSendEnv : SendEnv :=
  { now := 0, parseEther := Except.error (some "invalid decimal string"),
    parseUnits := Except.ok 1, feeData := Except.ok (some 1),
    send := Except.ok "0xabc" }

/-- A confirmation environment delivering a successful receipt. -/
def okConfirmEnv : ConfirmEnv :=
  { now := 0,
    result := ConfirmResult.receipt
      { status := some 1, gasUsed := 21000, gasPrice := some 1,
        blockNumber := 5, blockHash := "0xb" } 10 }

/-- Metrics with five recorded successes, used to drive the snapshot-ring
counterexample. -/
def fiveSuccessMetrics : Metrics :=
  { createInitialMetrics with successfulTransactions := 5 }

/-- Snapshot ring after 101 one-second ticks of a run whose five successes
all land before the first tick: the tick at second k samples tps 5 / k, so
the first tick (tps 5) is the all-run peak, and the 101st push shifts that
first snapshot out of the 100-entry ring. -/
def overflowSnaps : List TPSSnapshot :=
  (List.range 101).foldl
    (fun acc (k : Nat) => updateTpsSnapshot (1000 * ((k : Int) + 1)) 0 fiveSuccessMetrics acc) []

/-! Helper lemmas about the submitter. -/

theorem sendTransaction_status (g : Option String) (st : SenderState) (env : SendEnv) :
    (sendTransaction g st env).1.status = TxStatus.pending ∨
      (sendTransaction g st env).1.status = TxStatus.failed := by
  rcases env with ⟨now, pe, pu, fd, snd⟩
  rcases pe with e | u
  · simp [sendTransaction]
  · rcases snd with e3 | h3 <;> rcases pu with e1 | q1 <;> rcases fd with e2 | o2 <;>
      by_cases hg : jsTruthyStr g <;> simp [sendTransaction, hg]

theorem sendTransaction_nonce (g : Option String) (st : SenderState) (env : SendEnv) :
    (sendTransaction g st env).2.nonce =
      st.nonce + (if drawsNonce env then 1 else 0) := by
  rcases env with ⟨now, pe, pu, fd, snd⟩
  rcases pe with e | u
  · simp [sendTransaction, drawsNonce]
  · rcases snd with e3 | h3 <;> rcases pu with e1 | q1 <;> rcases fd with e2 | o2 <;>
      by_cases hg : jsTruthyStr g <;> simp [sendTransaction, drawsNonce, hg]

theorem runCalls_length (g : Option String) (envs : List SendEnv) (st : SenderState) :
    (runCalls g envs st).1.length = envs.length := by
  induction envs generalizing st with
  | nil => simp [runCalls]
  | cons e es ih => simp [runCalls, ih]

theorem runCalls_status (g : Option String) (envs : List SendEnv) (st : SenderState) :
    ∀ r ∈ (runCalls g envs st).1,
      r.status = TxStatus.pending ∨ r.status = TxStatus.failed := by
  induction envs generalizing st with
  | nil => simp [runCalls]
  | cons e es ih =>
    intro r hr
    simp only [runCalls, List.mem_cons] at hr
    rcases hr with rfl | hr
    · exact sendTransaction_status g st e
    · exact ih _ r hr

theorem runCalls_nonce (g : Option String) (envs : List SendEnv) (st : SenderState) :
    (runCalls g envs st).2.nonce = st.nonce + okCount envs := by
  induction envs generalizing st with
  | nil => simp [runCalls, okCount]
  | cons e es ih =>
    simp only [runCalls]
    rw [ih, sendTransaction_nonce]
    simp only [okCount, List.filter_cons]
    by_cases hd : drawsNonce e <;> simp [hd] <;> omega

theorem runCalls_append (g : Option String) (a b : List SendEnv) (st : SenderState) :
    runCalls g (a ++ b) st =
      ((runCalls g a st).1 ++ (runCalls g b (runCalls g a st).2).1,
        (runCalls g b (runCalls g a st).2).2) := by
  induction a generalizing st with
  | nil => simp [runCalls]
  | cons e es ih => simp [runCalls, ih]

theorem callsNonces_eq_range (envs : List SendEnv) (n : Nat) :
    callsNonces envs n = List.range' n (okCount envs) := by
  induction envs generalizing n with
  | nil => simp [callsNonces, okCount]
  | cons e es ih =>
    by_cases hd : drawsNonce e
    · simp [callsNonces, okCount, hd, List.filter_cons, ih, List.range'_succ]
    · simp [callsNonces, okCount, hd, List.filter_cons, ih]

theorem dispatchEnvList_length (plan : List (Nat × Bool)) (env : Nat → SendEnv)
    (idx : Nat) : (dispatchEnvList plan env idx).length = (plan.map Prod.fst).sum := by
  induction plan generalizing idx with
  | nil => simp [dispatchEnvList]
  | cons b rest ih =>
    obtain ⟨cur, pause⟩ := b
    simp [dispatchEnvList, ih]

theorem batchPlan_sum (t b : Nat) (hb : 1 ≤ b) :
    ((batchPlan t b).map Prod.fst).sum = t := by
  induction t using Nat.strong_induction_on with
  | _ t ih =>
    rw [batchPlan]
    by_cases h0 : t = 0 ∨ b = 0
    · rcases h0 with rfl | rfl
      · simp
      · omega
    · simp only [h0, dite_false, List.map_cons, List.sum_cons]
      have hlt : t - b < t := by omega
      rw [ih _ hlt]
      omega

theorem dispatchEnvList_const_mem (plan : List (Nat × Bool)) (c : SendEnv)
    (idx : Nat) : ∀ e ∈ dispatchEnvList plan (fun _ => c) idx, e = c := by
  induction plan generalizing idx with
  | nil => simp [dispatchEnvList]
  | cons hd rest ih =>
    obtain ⟨cur, pause⟩ := hd
    intro e he
    simp only [dispatchEnvList] at he
    rcases List.mem_append.mp he with h1 | h2
    · rcases List.mem_map.mp h1 with ⟨j, hj, hje⟩
      exact hje.symm
    · exact ih _ e h2

theorem execPlan_results (plan : List (Nat × Bool)) (env : Nat → SendEnv)
    (idx : Nat) (g : Option String) (st : SenderState) (m : Metrics) :
    (execPlan plan env idx g st m).1 = (runCalls g (dispatchEnvList plan env idx) st).1 ∧
    (execPlan plan env idx g st m).2.1 = (runCalls g (dispatchEnvList plan env idx) st).2 := by
  induction plan generalizing idx st m with
  | nil => simp [execPlan, dispatchEnvList, runCalls]
  | cons hd rest ih =>
    obtain ⟨cur, pause⟩ := hd
    simp only [execPlan, dispatchEnvList, sendBatchTransactions, runCalls_append]
    exact ⟨by rw [(ih _ _ _).1], by rw [(ih _ _ _).2]⟩

theorem errText_nonempty (e : JsError) (h : jsErrNonempty e = true) :
    (errText e).isEmpty = false := by
  rcases e with _ | s
  · decide
  · simpa [errText, jsErrNonempty] using h

/-! Claim theorems about the submitter. -/

/-- C3: sendTransaction never propagates an exception: for every environment
it returns an outcome that is pending or failed; a failed outcome carries an
empty hash and a non-empty error message (given that collaborator `Error`s
carry non-empty messages, the fallback text being non-empty anyway), and a
pending outcome carries the transmitted transaction hash and an effective gas
price. -/
theorem sendTransaction_outcome_contract (g : Option String) (st : SenderState)
    (env : SendEnv) (hne : sendEnvErrNonempty env = true) :
    ((sendTransaction g st env).1.status = TxStatus.pending ∨
      (sendTransaction g st env).1.status = TxStatus.failed)
    ∧ ((sendTransaction g st env).1.status = TxStatus.failed →
        (sendTransaction g st env).1.hash = "" ∧
        ∃ s, (sendTransaction g st env).1.error = some s ∧ s.isEmpty = false)
    ∧ ((sendTransaction g st env).1.status = TxStatus.pending →
        (∃ h, env.send = Except.ok h ∧ (sendTransaction g st env).1.hash = h) ∧
        ((sendTransaction g st env).1.gasPrice).isSome = true) := by
  rcases env with ⟨now, pe, pu, fd, snd⟩
  simp only [sendEnvErrNonempty, Bool.and_eq_true] at hne
  obtain ⟨⟨⟨h1, h2⟩, h3⟩, h4⟩ := hne
  rcases pe with e | u
  · have hb : jsErrNonempty e = true := by simpa [exceptErrNonempty] using h1
    exact ⟨Or.inr rfl, fun _ => ⟨rfl, errText e, rfl, errText_nonempty e hb⟩,
      fun hcon => by simp [sendTransaction] at hcon⟩
  · by_cases hg : jsTruthyStr g = true
    · rcases pu with e1 | q1
      · have hb : jsErrNonempty e1 = true := by simpa [exceptErrNonempty] using h2
        have hEq : sendTransaction g st ⟨now, Except.ok u, Except.error e1, fd, snd⟩ =
            ({ hash := "", status := TxStatus.failed, timestamp := now,
               error := some (errText e1) }, ⟨st.nonce + 1⟩) := by
          simp [sendTransaction, hg]
        rw [hEq]
        exact ⟨Or.inr rfl, fun _ => ⟨rfl, errText e1, rfl, errText_nonempty e1 hb⟩,
          fun hcon => by simp at hcon⟩
      · rcases snd with e3 | h3v
        · have hb : jsErrNonempty e3 = true := by simpa [exceptErrNonempty] using h4
          have hEq : sendTransaction g st ⟨now, Except.ok u, Except.ok q1, fd, Except.error e3⟩ =
              ({ hash := "", status := TxStatus.failed, timestamp := now,
                 error := some (errText e3) }, ⟨st.nonce + 1⟩) := by
            simp [sendTransaction, hg]
          rw [hEq]
          exact ⟨Or.inr rfl, fun _ => ⟨rfl, errText e3, rfl, errText_nonempty e3 hb⟩,
            fun hcon => by simp at hcon⟩
        · have hEq : sendTransaction g st ⟨now, Except.ok u, Except.ok q1, fd, Except.ok h3v⟩ =
              ({ hash := h3v, status := TxStatus.pending, timestamp := now,
                 gasPrice := some q1 }, ⟨st.nonce + 1⟩) := by
            simp [sendTransaction, hg]
          rw [hEq]
          exact ⟨Or.inl rfl, fun hcon => by simp at hcon,
            fun _ => ⟨⟨h3v, rfl, rfl⟩, rfl⟩⟩
    · have hg2 : jsTruthyStr g = false := by
        revert hg; cases jsTruthyStr g <;> simp
      rcases fd with e2 | o2
      · have hb : jsErrNonempty e2 = true := by simpa [exceptErrNonempty] using h3
        have hEq : sendTransaction g st ⟨now, Except.ok u, pu, Except.error e2, snd⟩ =
            ({ hash := "", status := TxStatus.failed, timestamp := now,
               error := some (errText e2) }, ⟨st.nonce + 1⟩) := by
          simp [sendTransaction, hg2]
        rw [hEq]
        exact ⟨Or.inr rfl, fun _ => ⟨rfl, errText e2, rfl, errText_nonempty e2 hb⟩,
          fun hcon => by simp at hcon⟩
      · rcases snd with e3 | h3v
        · have hb : jsErrNonempty e3 = true := by simpa [exceptErrNonempty] using h4
          have hEq : sendTransaction g st ⟨now, Except.ok u, pu, Except.ok o2, Except.error e3⟩ =
              ({ hash := "", status := TxStatus.failed, timestamp := now,
                 error := some (errText e3) }, ⟨st.nonce + 1⟩) := by
            simp [sendTransaction, hg2]
          rw [hEq]
          exact ⟨Or.inr rfl, fun _ => ⟨rfl, errText e3, rfl, errText_nonempty e3 hb⟩,
            fun hcon => by simp at hcon⟩
        · have hEq : sendTransaction g st ⟨now, Except.ok u, pu, Except.ok o2, Except.ok h3v⟩ =
              ({ hash := h3v, status := TxStatus.pending, timestamp := now,
                 gasPrice := some (o2.getD 0) }, ⟨st.nonce + 1⟩) := by
            simp [sendTransaction, hg2]
          rw [hEq]
          exact ⟨Or.inl rfl, fun hcon => by simp at hcon,
            fun _ => ⟨⟨h3v, rfl, rfl⟩, rfl⟩⟩

/-- C3 witness: with an all-success environment the contract instantiates and
the outcome is pending. -/
theorem sendTransaction_outcome_contract_witness :
    (sendTransaction none ⟨0⟩ okSendEnv).1.status = TxStatus.pending ∨
      (sendTransaction none ⟨0⟩ okSendEnv).1.status = TxStatus.failed :=
  (sendTransaction_outcome_contract none ⟨0⟩ okSendEnv (by decide)).1

/-- C2 counterexample: a sendTransaction call whose value string fails to
parse ends in a failed outcome without consuming a nonce (the counter stays
at 7), so it is not the case that every call ending in a failed outcome
consumes exactly one nonce value. -/
theorem sendTransaction_failed_no_nonce_draw :
    (sendTransaction none ⟨7⟩ badValueSendEnv).1.status = TxStatus.failed ∧
      (sendTransaction none ⟨7⟩ badValueSendEnv).2.nonce = 7 := by decide

/-- C2 amended: over a whole dispatch, the nonce values drawn (one per
sendTransaction call that reaches the nonce draw, which is every call whose
value string parses, including calls that later end failed; none for a call
whose value parse throws) form the consecutive, strictly increasing,
duplicate-free sequence starting at the sender's counter, independently of
the completion results; when every call reaches the draw there are exactly
transactionCount of them, and the dispatch leaves the counter advanced by
exactly that number. -/
theorem dispatch_nonces_strictly_increasing (cfg : LoadTestConfig)
    (env : Nat → SendEnv) (st : SenderState) (m : Metrics)
    (hconc : 1 ≤ cfg.concurrency)
    (hok : ∀ e ∈ dispatchEnvList (batchPlan cfg.transactionCount cfg.concurrency) env 0,
      drawsNonce e = true) :
    callsNonces (dispatchEnvList (batchPlan cfg.transactionCount cfg.concurrency) env 0)
        st.nonce = List.range' st.nonce cfg.transactionCount
    ∧ (callsNonces (dispatchEnvList (batchPlan cfg.transactionCount cfg.concurrency) env 0)
        st.nonce).Pairwise (· < ·)
    ∧ (callsNonces (dispatchEnvList (batchPlan cfg.transactionCount cfg.concurrency) env 0)
        st.nonce).Nodup
    ∧ (callsNonces (dispatchEnvList (batchPlan cfg.transactionCount cfg.concurrency) env 0)
        st.nonce).length = cfg.transactionCount
    ∧ (executeConcurrentTransactions cfg env st m).2.1.nonce =
        st.nonce + cfg.transactionCount := by
  have hfilter : (dispatchEnvList (batchPlan cfg.transactionCount cfg.concurrency) env 0).filter
      drawsNonce = dispatchEnvList (batchPlan cfg.transactionCount cfg.concurrency) env 0 :=
    List.filter_eq_self.mpr hok
  have hcount : okCount (dispatchEnvList (batchPlan cfg.transactionCount cfg.concurrency) env 0)
      = cfg.transactionCount := by
    rw [okCount, hfilter, dispatchEnvList_length, batchPlan_sum _ _ hconc]
  have hrange : callsNonces (dispatchEnvList (batchPlan cfg.transactionCount cfg.concurrency)
      env 0) st.nonce = List.range' st.nonce cfg.transactionCount := by
    rw [callsNonces_eq_range, hcount]
  refine ⟨hrange, ?_, ?_, ?_, ?_⟩
  · rw [hrange]; exact List.pairwise_lt_range' _ _
  · rw [hrange]; exact List.nodup_range' _ _
  · rw [hrange]; exact List.length_range' _ _ _
  · rw [executeConcurrentTransactions,
      (execPlan_results (batchPlan cfg.transactionCount cfg.concurrency) env 0
        cfg.gasPrice st m).2,
      runCalls_nonce, hcount]

/-- C2 amended witness: three transactions at concurrency two, all value
parses succeeding, draw nonces 7, 8, 9. -/
theorem dispatch_nonces_strictly_increasing_witness :
    callsNonces (dispatchEnvList (batchPlan 3 2) (fun _ => okSendEnv) 0) 7 =
      List.range' 7 3 :=
  (dispatch_nonces_strictly_increasing
    { rpcUrl := "", privateKey := "", targetAddress := "",
      transactionCount := 3, concurrency := 2 }
    (fun _ => okSendEnv) ⟨7⟩ createInitialMetrics (by decide)
    (fun e he => by
      rw [dispatchEnvList_const_mem _ okSendEnv _ e he]; decide)).1

/-- C7: a confirmation wait that ends in a rejected waitForTransaction call
(in particular a fired timeout) yields a failed outcome whose
confirmationTime is the elapsed wait and whose error carries the timeout
message; a null receipt yields a failed outcome with an explanatory message;
an arrived receipt yields success or failed according to its execution
status, populated with gas used, effective gas price, block number and hash,
and the elapsed wait. -/
theorem waitForConfirmation_cases (txHash : String) (conf : Nat) (timeout : Int)
    (cenv : ConfirmEnv) :
    match cenv.result with
    | ConfirmResult.throws e elapsed =>
        waitForConfirmation txHash conf timeout cenv =
          { hash := txHash, status := TxStatus.failed, timestamp := cenv.now,
            error := some (errTextConfirm e), confirmationTime := some elapsed }
    | ConfirmResult.nullReceipt =>
        waitForConfirmation txHash conf timeout cenv =
          { hash := txHash, status := TxStatus.failed, timestamp := cenv.now,
            error := some "Transaction receipt not found" }
    | ConfirmResult.receipt rc elapsed =>
        (waitForConfirmation txHash conf timeout cenv).status =
            (if rc.status = some 1 then TxStatus.success else TxStatus.failed)
        ∧ (waitForConfirmation txHash conf timeout cenv).gasUsed = some rc.gasUsed
        ∧ (waitForConfirmation txHash conf timeout cenv).gasPrice = some (rc.gasPrice.getD 0)
        ∧ (waitForConfirmation txHash conf timeout cenv).blockNumber = some rc.blockNumber
        ∧ (waitForConfirmation txHash conf timeout cenv).blockHash = some rc.blockHash
        ∧ (waitForConfirmation txHash conf timeout cenv).confirmationTime = some elapsed := by
  rcases cenv with ⟨now, res⟩
  rcases res with ⟨e, el⟩ | _ | ⟨rc, el⟩ <;> simp [waitForConfirmation]

/-- C10: getTransactionStatus returns null exactly when the endpoint reports
the transaction unknown; a throw of either provider query is caught and
becomes a failed outcome carrying the queried hash and the error message,
never a propagated exception and never null. -/
theorem getTransactionStatus_contract (txHash : String) (env : StatusEnv) :
    (getTransactionStatus txHash env = none ↔ env.getTransaction = Except.ok none)
    ∧ (match env.getTransaction with
       | Except.error e =>
           getTransactionStatus txHash env =
             some { hash := txHash, status := TxStatus.failed, timestamp := env.now,
                    error := some (errText e) }
       | Except.ok none => getTransactionStatus txHash env = none
       | Except.ok (some _) =>
           match env.getReceipt with
           | Except.error e =>
               getTransactionStatus txHash env =
                 some { hash := txHash, status := TxStatus.failed, timestamp := env.now,
                        error := some (errText e) }
           | Except.ok _ => (getTransactionStatus txHash env).isSome = true) := by
  rcases env with ⟨now, gt, gr⟩
  rcases gt with e | o
  · simp [getTransactionStatus]
  · rcases o with _ | tx
    · simp [getTransactionStatus]
    · rcases gr with e2 | o2
      · simp [getTransactionStatus]
      · rcases o2 with _ | rc <;> simp [getTransactionStatus]

/-! Helper lemmas about the load tester. -/

theorem count_pending_add_failed (l : List TransactionResult)
    (h : ∀ r ∈ l, r.status = TxStatus.pending ∨ r.status = TxStatus.failed) :
    (l.filter (fun r => r.status == TxStatus.pending)).length +
      (l.filter (fun r => r.status == TxStatus.failed)).length = l.length := by
  induction l with
  | nil => simp
  | cons a t ih =>
    have ha := h a (List.mem_cons_self a t)
    have ht := ih (fun r hr => h r (List.mem_cons_of_mem a hr))
    rcases ha with ha | ha <;> simp [List.filter_cons, ha] <;> omega

theorem execPlan_metrics (plan : List (Nat × Bool)) (env : Nat → SendEnv)
    (idx : Nat) (g : Option String) (st : SenderState) (m : Metrics) :
    (execPlan plan env idx g st m).2.2.totalTransactions
        = m.totalTransactions + ((plan.map Prod.fst).sum : Int)
    ∧ (execPlan plan env idx g st m).2.2.successfulTransactions
        = m.successfulTransactions
    ∧ (execPlan plan env idx g st m).2.2.pendingTransactions
        = m.pendingTransactions +
          (((execPlan plan env idx g st m).1.filter
            (fun r => r.status == TxStatus.pending)).length : Int)
    ∧ (execPlan plan env idx g st m).2.2.failedTransactions
        = m.failedTransactions +
          (((execPlan plan env idx g st m).1.filter
            (fun r => r.status == TxStatus.failed)).length : Int)
    ∧ (execPlan plan env idx g st m).1.length = (plan.map Prod.fst).sum
    ∧ (∀ r ∈ (execPlan plan env idx g st m).1,
        r.status = TxStatus.pending ∨ r.status = TxStatus.failed) := by
  induction plan generalizing idx st m with
  | nil => simp [execPlan]
  | cons hd rest ih =>
    obtain ⟨cur, pause⟩ := hd
    have hlen : (sendBatchTransactions cur g (fun j => env (idx + j)) st).1.length = cur := by
      simp [sendBatchTransactions, runCalls_length]
    have hstat : ∀ r ∈ (sendBatchTransactions cur g (fun j => env (idx + j)) st).1,
        r.status = TxStatus.pending ∨ r.status = TxStatus.failed :=
      runCalls_status g _ st
    obtain ⟨iht, ihs, ihp, ihf, ihl, ihst⟩ :=
      ih (idx + cur) (sendBatchTransactions cur g (fun j => env (idx + j)) st).2
        (updateAfterBatch m (sendBatchTransactions cur g (fun j => env (idx + j)) st).1 cur)
    simp only [execPlan]
    refine ⟨?_, ?_, ?_, ?_, ?_, ?_⟩
    · rw [iht]
      simp only [updateAfterBatch, List.map_cons, List.sum_cons]
      push_cast
      ring
    · rw [ihs]
      simp [updateAfterBatch]
    · rw [ihp]
      simp only [updateAfterBatch, List.filter_append, List.length_append]
      push_cast
      ring
    · rw [ihf]
      simp only [updateAfterBatch, List.filter_append, List.length_append]
      push_cast
      ring
    · simp [hlen, ihl]
    · intro r hr
      rcases List.mem_append.mp hr with h1 | h2
      · exact hstat r h1
      · exact ihst r h2

theorem waitForConfirmation_terminal (txHash : String) (conf : Nat)
    (timeout : Int) (cenv : ConfirmEnv) :
    (waitForConfirmation txHash conf timeout cenv).status = TxStatus.success ∨
      (waitForConfirmation txHash conf timeout cenv).status = TxStatus.failed := by
  rcases cenv with ⟨now, res⟩
  rcases res with ⟨e, el⟩ | _ | ⟨rc, el⟩
  · exact Or.inr rfl
  · exact Or.inr rfl
  · by_cases hs : rc.status = some 1 <;> simp [waitForConfirmation, hs]

theorem waitForBatchConfirmations_length (hs : List String) (conf : Nat)
    (timeout : Int) (cenv : Nat → ConfirmEnv) :
    (waitForBatchConfirmations hs conf timeout cenv).length = hs.length := by
  simp [waitForBatchConfirmations]

theorem waitForBatchConfirmations_terminal (hs : List String) (conf : Nat)
    (timeout : Int) (cenv : Nat → ConfirmEnv) :
    ∀ r ∈ waitForBatchConfirmations hs conf timeout cenv,
      r.status = TxStatus.success ∨ r.status = TxStatus.failed := by
  intro r hr
  rcases List.mem_map.mp hr with ⟨p, hp, hpe⟩
  rw [← hpe]
  exact waitForConfirmation_terminal _ _ _ _

theorem applyConfirmation_counts (m : Metrics) (r : TransactionResult)
    (h : r.status = TxStatus.success ∨ r.status = TxStatus.failed) :
    (applyConfirmation m r).pendingTransactions = m.pendingTransactions - 1
    ∧ (applyConfirmation m r).successfulTransactions +
        (applyConfirmation m r).failedTransactions
        = m.successfulTransactions + m.failedTransactions + 1
    ∧ (applyConfirmation m r).totalTransactions = m.totalTransactions := by
  rcases h with h | h
  · rcases hg : r.gasUsed with _ | g
    · rcases hb : r.blockNumber with _ | b
      · simp [applyConfirmation, h, hg, hb]
        omega
      · by_cases hb0 : b = 0 <;> simp [applyConfirmation, h, hg, hb, hb0] <;> omega
    · rcases hb : r.blockNumber with _ | b
      · by_cases hg0 : g = 0 <;> simp [applyConfirmation, h, hg, hb, hg0] <;> omega
      · by_cases hg0 : g = 0 <;> by_cases hb0 : b = 0 <;>
          simp [applyConfirmation, h, hg, hb, hg0, hb0] <;> omega
  · simp [applyConfirmation, h]
    omega

theorem foldl_applyConfirmation (l : List TransactionResult) (m : Metrics)
    (h : ∀ r ∈ l, r.status = TxStatus.success ∨ r.status = TxStatus.failed) :
    (l.foldl applyConfirmation m).pendingTransactions
        = m.pendingTransactions - l.length
    ∧ (l.foldl applyConfirmation m).successfulTransactions +
        (l.foldl applyConfirmation m).failedTransactions
        = m.successfulTransactions + m.failedTransactions + l.length
    ∧ (l.foldl applyConfirmation m).totalTransactions = m.totalTransactions := by
  induction l generalizing m with
  | nil => simp
  | cons a t ih =>
    have ha := h a (List.mem_cons_self a t)
    obtain ⟨hp, hsf, htot⟩ := applyConfirmation_counts m a ha
    obtain ⟨ihp, ihsf, ihtot⟩ :=
      ih (applyConfirmation m a) (fun r hr => h r (List.mem_cons_of_mem a hr))
    refine ⟨?_, ?_, ?_⟩
    · rw [List.foldl_cons, ihp, hp]
      simp only [List.length_cons]
      push_cast
      omega
    · rw [List.foldl_cons, ihsf, hsf]
      simp only [List.length_cons]
      push_cast
      omega
    · rw [List.foldl_cons, ihtot, htot]

theorem waitForAllConfirmations_counts (results : List TransactionResult)
    (cenv : Nat → ConfirmEnv) (dur : Option Int) (m : Metrics) :
    (waitForAllConfirmations results cenv dur m).pendingTransactions
        = m.pendingTransactions -
          ((results.filter (fun r => r.status == TxStatus.pending)).length : Int)
    ∧ (waitForAllConfirmations results cenv dur m).successfulTransactions +
        (waitForAllConfirmations results cenv dur m).failedTransactions
        = m.successfulTransactions + m.failedTransactions +
          ((results.filter (fun r => r.status == TxStatus.pending)).length : Int)
    ∧ (waitForAllConfirmations results cenv dur m).totalTransactions
        = m.totalTransactions := by
  by_cases h0 : (results.filter (fun r => r.status == TxStatus.pending)).length = 0
  · simp [waitForAllConfirmations, h0]
  · simp only [waitForAllConfirmations, h0, if_false]
    generalize (match dur with
      | some d => if d = 0 then 300000 else d * 1000
      | none => (300000 : Int)) = tmo
    obtain ⟨hp, hsf, htot⟩ := foldl_applyConfirmation
      (waitForBatchConfirmations
        ((results.filter (fun r => r.status == TxStatus.pending)).map
          TransactionResult.hash) 1 tmo cenv) m
      (waitForBatchConfirmations_terminal _ _ _ _)
    rw [hp, hsf, htot, waitForBatchConfirmations_length, List.length_map]
    exact ⟨rfl, rfl, rfl⟩

theorem batchPlan_25_10 : batchPlan 25 10 = [(10, true), (10, true), (5, false)] := by
  rw [batchPlan]
  norm_num
  rw [batchPlan]
  norm_num
  rw [batchPlan]
  norm_num
  rw [batchPlan]
  simp

theorem updateTpsSnapshot_eq_pushRing (now startT : Int) (m : Metrics)
    (snaps : List TPSSnapshot) :
    updateTpsSnapshot now startT m snaps = pushRing snaps (tickSnap now startT m) := rfl

theorem pushRing_length_le (snaps : List TPSSnapshot) (s : TPSSnapshot)
    (h : snaps.length ≤ 100) : (pushRing snaps s).length ≤ 100 := by
  simp only [pushRing]
  split_ifs with h1
  · simp only [List.length_tail, List.length_append, List.length_singleton]
    omega
  · simp only [List.length_append, List.length_singleton] at h1 ⊢
    omega

theorem pushRing_eq_drop (snaps : List TPSSnapshot) (s : TPSSnapshot)
    (h : snaps.length ≤ 100) :
    pushRing snaps s = (snaps ++ [s]).drop (snaps.length + 1 - 100) := by
  simp only [pushRing]
  split_ifs with h1
  · rw [← List.drop_one]
    congr 1
    simp only [List.length_append, List.length_singleton] at h1
    omega
  · simp only [List.length_append, List.length_singleton] at h1
    have h0 : snaps.length + 1 - 100 = 0 := by omega
    rw [h0, List.drop_zero]

theorem pushRing_length_eq (snaps : List TPSSnapshot) (s : TPSSnapshot)
    (h : snaps.length ≤ 100) :
    (pushRing snaps s).length = min (snaps.length + 1) 100 := by
  simp only [pushRing]
  split_ifs with h1 <;>
    simp only [List.length_tail, List.length_append, List.length_singleton] at h1 ⊢ <;>
    omega

theorem foldl_pushRing_drop (l acc : List TPSSnapshot) (h : acc.length ≤ 100) :
    l.foldl pushRing acc = (acc ++ l).drop (acc.length + l.length - 100) := by
  induction l generalizing acc with
  | nil =>
    have h0 : acc.length - 100 = 0 := by omega
    simp [h0]
  | cons s t ih =>
    have hd : acc.length + 1 - 100 ≤ (acc ++ [s]).length := by
      simp only [List.length_append, List.length_singleton]
      omega
    rw [List.foldl_cons, ih _ (pushRing_length_le acc s h),
      pushRing_length_eq acc s h, pushRing_eq_drop acc s h,
      ← List.drop_append_of_le_length hd, List.drop_drop]
    have hidx : acc.length + 1 - 100 + (min (acc.length + 1) 100 + t.length - 100)
        = acc.length + (s :: t).length - 100 := by
      simp only [List.length_cons]
      omega
    rw [List.append_assoc, List.singleton_append, hidx]

theorem overflowSnaps_char :
    overflowSnaps = (List.range' 1 100).map
      (fun (k : Nat) => tickSnap (1000 * ((k : Int) + 1)) 0 fiveSuccessMetrics) := by
  have h1 : overflowSnaps = ((List.range 101).map
      (fun (k : Nat) => tickSnap (1000 * ((k : Int) + 1)) 0 fiveSuccessMetrics)).foldl
        pushRing [] := by
    unfold overflowSnaps
    simp only [updateTpsSnapshot_eq_pushRing, List.foldl_map]
  rw [h1, foldl_pushRing_drop _ _ (by simp)]
  have hidx : ([] : List TPSSnapshot).length +
      ((List.range 101).map
        (fun (k : Nat) => tickSnap (1000 * ((k : Int) + 1)) 0 fiveSuccessMetrics)).length - 100
      = 1 := by
    simp
  rw [hidx, List.nil_append, ← List.map_drop]
  have hdrop : (List.range 101).drop 1 = List.range' 1 100 := by
    rw [List.range_eq_range']
    rfl
  rw [hdrop]

theorem overflowSnaps_tps_le : ∀ s ∈ overflowSnaps, s.tps ≤ 5 / 2 := by
  intro s hs
  rw [overflowSnaps_char] at hs
  obtain ⟨k, hk, rfl⟩ := List.mem_map.mp hs
  obtain ⟨hk1, hk2⟩ := List.mem_range'_1.mp hk
  have hel : (((1000 * ((k : Int) + 1) - 0 : Int)) : Rat) / 1000 = (k : Rat) + 1 := by
    push_cast
    rw [sub_zero]
    exact mul_div_cancel_left₀ _ (by norm_num)
  have h5 : ((fiveSuccessMetrics.successfulTransactions : Int) : Rat) = 5 := by
    norm_num [fiveSuccessMetrics, createInitialMetrics]
  simp only [tickSnap, hel, h5]
  rw [if_pos (by positivity)]
  rw [div_le_div_iff₀ (by positivity) (by norm_num)]
  have hk1r : (1 : Rat) ≤ (k : Rat) := by exact_mod_cast hk1
  nlinarith

theorem foldr_max_le (l : List Rat) (c : Rat) (h0 : 0 ≤ c)
    (h : ∀ x ∈ l, x ≤ c) : l.foldr max 0 ≤ c := by
  induction l with
  | nil => simpa using h0
  | cons a t ih =>
    simp only [List.foldr_cons]
    exact max_le (h a (List.mem_cons_self a t))
      (ih (fun x hx => h x (List.mem_cons_of_mem a hx)))

theorem le_foldr_max (l : List Rat) (x : Rat) (h : x ∈ l) :
    x ≤ l.foldr max 0 := by
  induction l with
  | nil => cases h
  | cons a t ih =>
    rcases List.mem_cons.mp h with rfl | hm
    · exact le_max_left _ _
    · exact le_trans (ih hm) (le_max_right _ _)

theorem calculateFinalMetrics_peak (pf : String → Rat) (startT endT : Int)
    (snaps : List TPSSnapshot) (gp : Option String) (m : Metrics) :
    (calculateFinalMetrics pf startT endT snaps gp m).peakTPS
      = (snaps.map TPSSnapshot.tps).foldr max 0 := by
  simp only [calculateFinalMetrics]
  split_ifs <;> rfl

theorem calculateFinalMetrics_avg (pf : String → Rat) (startT endT : Int)
    (snaps : List TPSSnapshot) (gp : Option String) (m : Metrics)
    (h : 0 < endT - startT) :
    (calculateFinalMetrics pf startT endT snaps gp m).averageTPS
        = ((m.successfulTransactions : Rat) * 1000) / (((endT - startT : Int)) : Rat)
    ∧ (calculateFinalMetrics pf startT endT snaps gp m).totalDuration
        = endT - startT := by
  simp only [calculateFinalMetrics, h, if_true]
  constructor
  · split_ifs <;> rfl
  · split_ifs <;> rfl

/-! Claim theorems about the load tester. -/

/-- C1: starting from freshly initialized metrics, after dispatch the counters
satisfy success + failed + pending = total with total equal to the configured
transaction count, and after confirmation tracking completes the pending
counter is zero while the partition success + failed = total still holds, so
no outcome remains pending in the final summary. -/
theorem metrics_partition (cfg : LoadTestConfig) (env : Nat → SendEnv)
    (cenv : Nat → ConfirmEnv) (st : SenderState) (hconc : 1 ≤ cfg.concurrency) :
    (executeConcurrentTransactions cfg env st createInitialMetrics).2.2.successfulTransactions
        + (executeConcurrentTransactions cfg env st createInitialMetrics).2.2.failedTransactions
        + (executeConcurrentTransactions cfg env st createInitialMetrics).2.2.pendingTransactions
      = (executeConcurrentTransactions cfg env st createInitialMetrics).2.2.totalTransactions
    ∧ (executeConcurrentTransactions cfg env st createInitialMetrics).2.2.totalTransactions
      = (cfg.transactionCount : Int)
    ∧ (waitForAllConfirmations
        (executeConcurrentTransactions cfg env st createInitialMetrics).1 cenv
        cfg.duration
        (executeConcurrentTransactions cfg env st createInitialMetrics).2.2).pendingTransactions
      = 0
    ∧ (waitForAllConfirmations
        (executeConcurrentTransactions cfg env st createInitialMetrics).1 cenv
        cfg.duration
        (executeConcurrentTransactions cfg env st createInitialMetrics).2.2).successfulTransactions
      + (waitForAllConfirmations
        (executeConcurrentTransactions cfg env st createInitialMetrics).1 cenv
        cfg.duration
        (executeConcurrentTransactions cfg env st createInitialMetrics).2.2).failedTransactions
      = (waitForAllConfirmations
        (executeConcurrentTransactions cfg env st createInitialMetrics).1 cenv
        cfg.duration
        (executeConcurrentTransactions cfg env st createInitialMetrics).2.2).totalTransactions := by
  obtain ⟨ht, hs, hp, hf, hl, hst⟩ :=
    execPlan_metrics (batchPlan cfg.transactionCount cfg.concurrency) env 0
      cfg.gasPrice st createInitialMetrics
  have hsum : ((batchPlan cfg.transactionCount cfg.concurrency).map Prod.fst).sum
      = cfg.transactionCount := batchPlan_sum _ _ hconc
  have hcount := count_pending_add_failed
    (execPlan (batchPlan cfg.transactionCount cfg.concurrency) env 0 cfg.gasPrice st
      createInitialMetrics).1 hst
  obtain ⟨wp, wsf, wtot⟩ := waitForAllConfirmations_counts
    (execPlan (batchPlan cfg.transactionCount cfg.concurrency) env 0 cfg.gasPrice st
      createInitialMetrics).1 cenv cfg.duration
    (execPlan (batchPlan cfg.transactionCount cfg.concurrency) env 0 cfg.gasPrice st
      createInitialMetrics).2.2
  simp only [executeConcurrentTransactions]
  rw [hsum] at ht
  rw [hsum] at hl
  rw [hl] at hcount
  have c1 : createInitialMetrics.totalTransactions = 0 := rfl
  have c2 : createInitialMetrics.successfulTransactions = 0 := rfl
  have c3 : createInitialMetrics.failedTransactions = 0 := rfl
  have c4 : createInitialMetrics.pendingTransactions = 0 := rfl
  refine ⟨?_, ?_, ?_, ?_⟩
  · rw [ht, hs, hp, hf, c1, c2, c3, c4]
    push_cast
    omega
  · rw [ht, c1]
    push_cast
    omega
  · rw [wp, hp, c4]
    push_cast
    omega
  · rw [wsf, wtot, hs, hf, ht, c1, c2, c3]
    push_cast
    omega

/-- C1 witness: three transactions at concurrency two against an all-success
transport, confirmations all arriving, leave zero pending. -/
theorem metrics_partition_witness :
    (waitForAllConfirmations
      (executeConcurrentTransactions
        { rpcUrl := "", privateKey := "", targetAddress := "",
          transactionCount := 3, concurrency := 2 }
        (fun _ => okSendEnv) ⟨0⟩ createInitialMetrics).1
      (fun _ => okConfirmEnv) none
      (executeConcurrentTransactions
        { rpcUrl := "", privateKey := "", targetAddress := "",
          transactionCount := 3, concurrency := 2 }
        (fun _ => okSendEnv) ⟨0⟩ createInitialMetrics).2.2).pendingTransactions = 0 :=
  (metrics_partition
    { rpcUrl := "", privateKey := "", targetAddress := "",
      transactionCount := 3, concurrency := 2 }
    (fun _ => okSendEnv) (fun _ => okConfirmEnv) ⟨0⟩ (by decide)).2.2.1

/-- C4: for transactionCount 25 and concurrency 10 the dispatch loop plans
batches of sizes 10, 10, 5 in that order, pausing after each batch except the
last, and in general (concurrency at least 1) the returned sequence contains
exactly transactionCount outcomes accumulated in batch order. -/
theorem dispatch_batch_schedule (cfg : LoadTestConfig) (env : Nat → SendEnv)
    (st : SenderState) (m : Metrics) (hconc : 1 ≤ cfg.concurrency) :
    batchPlan 25 10 = [(10, true), (10, true), (5, false)]
    ∧ (executeConcurrentTransactions cfg env st m).1.length = cfg.transactionCount := by
  refine ⟨batchPlan_25_10, ?_⟩
  rw [executeConcurrentTransactions,
    (execPlan_metrics (batchPlan cfg.transactionCount cfg.concurrency) env 0
      cfg.gasPrice st m).2.2.2.2.1,
    batchPlan_sum _ _ hconc]

/-- C4 witness: at transactionCount 25 and concurrency 10 the dispatch
returns 25 outcomes. -/
theorem dispatch_batch_schedule_witness :
    (executeConcurrentTransactions
      { rpcUrl := "", privateKey := "", targetAddress := "",
        transactionCount := 25, concurrency := 10 }
      (fun _ => okSendEnv) ⟨0⟩ createInitialMetrics).1.length = 25 :=
  (dispatch_batch_schedule
    { rpcUrl := "", privateKey := "", targetAddress := "",
      transactionCount := 25, concurrency := 10 }
    (fun _ => okSendEnv) ⟨0⟩ createInitialMetrics (by decide)).2

/-- C5 counterexample: the snapshot ring keeps only the most recent 100
snapshots, so after 101 ticks of a run whose five successes all precede the
first tick, the first snapshot (tps 5, the run's true peak) has been
discarded and the finalized peakTPS is 5/2 < 5: peakTPS is not the maximum
over all snapshots ever recorded, nor an upper bound of them. -/
theorem peak_tps_misses_discarded_snapshot :
    (updateTpsSnapshot 1000 0 fiveSuccessMetrics []).map TPSSnapshot.tps = [5]
    ∧ (calculateFinalMetrics (fun _ => 0) 0 102000 overflowSnaps none
        fiveSuccessMetrics).peakTPS < 5 := by
  constructor
  · rw [updateTpsSnapshot_eq_pushRing]
    simp [pushRing, tickSnap, fiveSuccessMetrics, createInitialMetrics]
  · rw [calculateFinalMetrics_peak]
    have hb : (overflowSnaps.map TPSSnapshot.tps).foldr max 0 ≤ 5 / 2 := by
      refine foldr_max_le _ _ (by norm_num) ?_
      intro x hx
      obtain ⟨sn, hsn, rfl⟩ := List.mem_map.mp hx
      exact overflowSnaps_tps_le sn hsn
    exact lt_of_le_of_lt hb (by norm_num)

/-- C5 amended: the finalized peakTPS equals the maximum instantaneous tps
over the snapshots retained in the ring at run end (the most recent 100; a
snapshot discarded by the ring bound no longer participates), hence it is at
least every retained snapshot's tps and equals zero when no snapshot is
retained. -/
theorem peak_tps_bounds_retained (pf : String → Rat) (startT endT : Int)
    (snaps : List TPSSnapshot) (gp : Option String) (m : Metrics) :
    (calculateFinalMetrics pf startT endT snaps gp m).peakTPS
        = (snaps.map TPSSnapshot.tps).foldr max 0
    ∧ (∀ s ∈ snaps,
        s.tps ≤ (calculateFinalMetrics pf startT endT snaps gp m).peakTPS)
    ∧ (calculateFinalMetrics pf startT endT [] gp m).peakTPS = 0 := by
  refine ⟨calculateFinalMetrics_peak pf startT endT snaps gp m, ?_, ?_⟩
  · intro s hs
    rw [calculateFinalMetrics_peak]
    exact le_foldr_max _ s.tps (List.mem_map_of_mem TPSSnapshot.tps hs)
  · rw [calculateFinalMetrics_peak]
    rfl

/-- C5 amended witness: a single retained snapshot of tps 5 bounds and equals
the finalized peak. -/
theorem peak_tps_bounds_retained_witness :
    ({ timestamp := 1000, tps := 5, successCount := 5, failureCount := 0 } :
        TPSSnapshot).tps ≤
      (calculateFinalMetrics (fun _ => 0) 0 2000
        [{ timestamp := 1000, tps := 5, successCount := 5, failureCount := 0 }]
        none createInitialMetrics).peakTPS :=
  (peak_tps_bounds_retained (fun _ => 0) 0 2000
    [{ timestamp := 1000, tps := 5, successCount := 5, failureCount := 0 }]
    none createInitialMetrics).2.1 _ (List.mem_singleton_self _)

/-- C6: when the run has positive wall-clock duration, finalization sets
averageTPS to exactly successfulTransactions * 1000 / (endTime - startTime)
and records totalDuration = endTime - startTime; the computation is a pure
function of its inputs. -/
theorem average_tps_formula (pf : String → Rat) (startT endT : Int)
    (snaps : List TPSSnapshot) (gp : Option String) (m : Metrics)
    (h : startT < endT) :
    (calculateFinalMetrics pf startT endT snaps gp m).averageTPS
        = ((m.successfulTransactions : Rat) * 1000) / (((endT - startT : Int)) : Rat)
    ∧ (calculateFinalMetrics pf startT endT snaps gp m).totalDuration
        = endT - startT :=
  calculateFinalMetrics_avg pf startT endT snaps gp m (by omega)

/-- C6 witness: seven successes over two seconds finalize to averageTPS
7000/2000 = 7/2. -/
theorem average_tps_formula_witness :
    (calculateFinalMetrics (fun _ => 0) 0 2000 []
      none { createInitialMetrics with successfulTransactions := 7 }).averageTPS
      = ((((7 : Int)) : Rat) * 1000) / (((2000 - 0 : Int)) : Rat) :=
  (average_tps_formula (fun _ => 0) 0 2000 [] none
    { createInitialMetrics with successfulTransactions := 7 } (by decide)).1

/-- C8: stopLoadTest never raises: called while idle it returns with the
state unchanged, called while running it flips the running flag off and
records the end time (it performs no cancellation of in-flight work, being a
pure flag-and-clock update). -/
theorem stop_contract (st : LTState) (now : Int) :
    (∃ st2, stopLoadTest now st = Except.ok st2)
    ∧ (st.isRunning = false → stopLoadTest now st = Except.ok st)
    ∧ (st.isRunning = true → ∃ st2, stopLoadTest now st = Except.ok st2 ∧
        st2.isRunning = false ∧ st2.endTime = now ∧ st2.metrics.endTime = now) := by
  cases hr : st.isRunning
  · refine ⟨⟨st, ?_⟩, fun _ => ?_, fun hcon => Bool.noConfusion hcon⟩ <;>
      simp [stopLoadTest, hr]
  · have hstop : stopLoadTest now st = Except.ok
        { st with
          isRunning := false
          endTime := now
          metrics := { st.metrics with endTime := now } } := by
      simp [stopLoadTest, hr]
    exact ⟨⟨_, hstop⟩, fun hcon => Bool.noConfusion hcon,
      fun _ => ⟨_, hstop, rfl, rfl, rfl⟩⟩

/-- C8 witness: stopping an idle tester returns the state unchanged without
an error. -/
theorem stop_contract_witness :
    stopLoadTest 5
      { isRunning := false, startTime := 0, endTime := 0,
        metrics := createInitialMetrics, tpsSnapshots := [] }
      = Except.ok
      { isRunning := false, startTime := 0, endTime := 0,
        metrics := createInitialMetrics, tpsSnapshots := [] } :=
  (stop_contract
    { isRunning := false, startTime := 0, endTime := 0,
      metrics := createInitialMetrics, tpsSnapshots := [] } 5).2.1 rfl

/-- C9: startLoadTest invoked while a run is in progress fails with the
lifecycle error before performing any dispatch or state change: the call
evaluates to that error and produces no new run state. -/
theorem start_rejects_while_running (cfg : LoadTestConfig) (env : Nat → SendEnv)
    (cenv : Nat → ConfirmEnv) (pf : String → Rat) (snaps : List TPSSnapshot)
    (now endNow : Int) (sender : SenderState) (st : LTState)
    (h : st.isRunning = true) :
    startLoadTest cfg env cenv pf snaps now endNow sender st =
      Except.error "Load test is already running" := by
  simp [startLoadTest, h]

/-- C9 witness: a running tester rejects a second start. -/
theorem start_rejects_while_running_witness :
    startLoadTest
      { rpcUrl := "", privateKey := "", targetAddress := "",
        transactionCount := 3, concurrency := 2 }
      (fun _ => okSendEnv) (fun _ => okConfirmEnv) (fun _ => 0) [] 0 1 ⟨0⟩
      { isRunning := true, startTime := 0, endTime := 0,
        metrics := createInitialMetrics, tpsSnapshots := [] }
      = Except.error "Load test is already running" :=
  start_rejects_while_running _ _ _ _ _ _ _ _ _ rfl

end EvmLoadTest
